import Mathlib

/-!
Verification of `src/hooks/handover_worker.py` (the two-pass HANDOVER
pipeline) against its specification.

Modelling conventions:
* A Python string is a sequence of code points, modelled as `List Char`
  (abbreviated `Str`); Python slicing `s[:n]` is `List.take n`,
  `s[-n:]` is `List.drop (length - n)`, `len` is `List.length`,
  `str.strip()` is `pyStrip`.
* One line of the jsonl transcript is `Option Record`: `none` for a line
  that fails JSON decoding, `some r` for a decoded object, keeping the
  fields the worker reads (`type`, `subtype`, `message.role`,
  `message.content`).
* The filesystem effects of `main` (handover document, error log, status
  file, readiness marker) are a record `FS`; the two external `claude -p`
  calls are oracles of type `Outcome`.  `runMain` returns the final
  filesystem together with the ordered trace of effect events.
-/

/-- Python strings as sequences of code points. -/
abbrev Str := List Char

/-- Literal helper: the code points of a Lean string literal. -/
def str (s : String) : Str := s.data

/-- One element of a `message.content` block list.  `text` keeps the
block's `text` field (`block.get("text", "")`); `toolUse` / `toolResult`
are blocks whose `type` is `"tool_use"` / `"tool_result"`; `other`
covers every remaining shape (non-dict items, unknown types). -/
inductive Block where
  | text (s : Str)
  | toolUse
  | toolResult
  | other
  deriving DecidableEq, Repr

/-- The `message.content` payload: a plain string, a block list, or any
other JSON value (including a missing `content` key, which the worker
defaults to `""` or `[]`). -/
inductive Content where
  | str (s : Str)
  | blocks (bs : List Block)
  | other
  deriving DecidableEq, Repr

/-- The fields of one decoded jsonl record that `handover_worker.py`
reads: `obj.get("type", "")`, `obj.get("subtype")` (absent modelled as
`""`, which never equals `"compact_boundary"`), `message.role` (absent
gives `none`), `message.content`. -/
structure Record where
  type : Str
  subtype : Str
  role : Option Str
  content : Content
  deriving DecidableEq, Repr

/-- `extract_text`: text content of a message, skipping
tool_use/tool_result blocks; block texts are joined with `"\n"`. -/
def extract_text : Content → Str
  | Content.str s => s
  | Content.blocks bs =>
      List.intercalate (str "\n")
        (bs.filterMap fun b =>
          match b with
          | Block.text s => some s
          | _ => none)
  | Content.other => []

/-- `has_tool_use`: whether the content is a block list containing a
`tool_use` block. -/
def has_tool_use : Content → Bool
  | Content.blocks bs =>
      bs.any fun b =>
        match b with
        | Block.toolUse => true
        | _ => false
  | _ => false

/-- Python `str.strip()`: drop whitespace from both ends. -/
def pyStrip (s : Str) : Str :=
  ((s.dropWhile Char.isWhitespace).reverse.dropWhile Char.isWhitespace).reverse

/-- Substring test, Python's `sub in s`. -/
def listContains (sub : Str) : Str → Bool
  | [] => sub.isEmpty
  | c :: tl => sub.isPrefixOf (c :: tl) || listContains sub tl

/-- Is this line a compaction boundary record
(`type == "system" and subtype == "compact_boundary"`)? -/
def isBoundary : Option Record → Bool
  | some r => r.type == str "system" && r.subtype == str "compact_boundary"
  | none => false

/-- Positions of compaction boundaries, scanning from index `i`
(the worker's `enumerate` loop collecting `compact_boundaries`). -/
def boundaryPositionsFrom : List (Option Record) → Nat → List Nat
  | [], _ => []
  | x :: xs, i =>
      if isBoundary x then i :: boundaryPositionsFrom xs (i + 1)
      else boundaryPositionsFrom xs (i + 1)

/-- All compaction-boundary positions of the log, in order. -/
def boundaryPositions (lines : List (Option Record)) : List Nat :=
  boundaryPositionsFrom lines 0

/-- The continuation-summary marker phrase test. -/
def containsMarker (s : Str) : Bool :=
  listContains (str "continued from a previous conversation") s

/-- The summary candidate of one line in the lookahead window: its text
when the record decodes, `message.role == "user"`, and the text contains
the marker phrase. -/
def summaryCandidate : Option Record → Option Str
  | none => none
  | some r =>
      if r.role = some (str "user") then
        let t := extract_text r.content
        if containsMarker t then some t else none
      else none

/-- The compaction summary: first marker-bearing user message in
`range(last_boundary + 1, min(last_boundary + 5, len(lines)))`,
else `""`. -/
def findSummary (lines : List (Option Record)) (lastB : Nat) : Str :=
  ((List.range' (lastB + 1) (min (lastB + 5) lines.length - (lastB + 1))).findSome?
    fun i => summaryCandidate (lines.getD i none)).getD []

/-- The per-turn truncation step: text longer than 2000 code points is
cut to its first 2000 with the truncation marker appended. -/
def truncateTurn (text : Str) : Str :=
  if 2000 < text.length then text.take 2000 ++ str "\n[...truncated...]"
  else text

/-- The turn derived from one line of the processing range, `none` when
the line is skipped (decode failure, non-conversation type, assistant
tool noise, blank text, short user text). -/
def turnOfRecord : Option Record → Option Str
  | none => none
  | some r =>
      if r.type ≠ str "user" ∧ r.type ≠ str "assistant" then none
      else
        let role := r.role.getD r.type
        if role = str "assistant" ∧ has_tool_use r.content then none
        else
          let text := extract_text r.content
          if pyStrip text = [] then none
          else if role = str "user" ∧ text.length < 10 then none
          else some (str "[" ++ role ++ str "]: " ++ truncateTurn text)

/-- The extracted conversation over `range(start, last)`. -/
def conversationOf (lines : List (Option Record)) (start lastB : Nat) : List Str :=
  (List.range' start (lastB - start)).filterMap fun i =>
    turnOfRecord (lines.getD i none)

/-- `parse_jsonl`: `none` is the no-compaction sentinel; otherwise the
compaction summary and the conversation of the processing range, whose
start is the second-to-last boundary when at least two exist, else 0. -/
def parse_jsonl (lines : List (Option Record)) : Option (Str × List Str) :=
  let bs := boundaryPositions lines
  if bs.isEmpty then none
  else
    let lastB := bs.getD (bs.length - 1) 0
    let startB := if 2 ≤ bs.length then bs.getD (bs.length - 2) 0 else 0
    some (findSummary lines lastB, conversationOf lines startB lastB)

/-- Pass 1 transcript preparation: turns joined by blank lines, capped
to the last 150000 code points when longer. -/
def pass1_transcript (conversation : List Str) : Str :=
  let t := List.intercalate (str "\n\n") conversation
  if 150000 < t.length then t.drop (t.length - 150000) else t

/-- Pass 1 summary preparation: a summary longer than 20000 code points
is cut to its first 20000 with the truncation marker appended. -/
def pass1_summary (s : Str) : Str :=
  if 20000 < s.length then s.take 20000 ++ str "\n[...truncated...]"
  else s

/-- The JSON payload of one `write_status` call (`handover-status.json`):
phase, step/total, session id, timestamp, error message. -/
structure StatusRec where
  phase : Str
  step : Nat
  total : Nat
  session_id : Str
  updated_at : Str
  error : Str
  deriving DecidableEq, Repr

/-- The filesystem state touched by one worker run, per session:
`HANDOVER-{session}.md`, `HANDOVER-{session}.error.log`, the shared
status file, and the readiness marker.  `none` means the file is
absent. -/
structure FS where
  handover : Option Str
  errorLog : Option Str
  status : Option StatusRec
  ready : Option Str
  deriving DecidableEq, Repr

/-- The outcome of one `call_claude` invocation: `ret r` when the call
returns (`r = none` models `None`, i.e. non-zero exit or blank output),
`timedOut` when `subprocess.TimeoutExpired` is raised, `exc ty msg` for
any other exception (its type name and message). -/
inductive Outcome where
  | ret (r : Option Str)
  | timedOut
  | exc (ty msg : Str)
  deriving DecidableEq, Repr

/-- The effect events of one run, in execution order. -/
inductive Ev where
  | mkScratch
  | callP1
  | callP2
  | wStatus
  | wHandover
  | wError
  | wReady
  | rmScratch
  deriving DecidableEq, Repr

/-- `write_status`: overwrite the shared status file. -/
def write_status (fs : FS) (phase : Str) (step total : Nat)
    (sid now err : Str) : FS :=
  { fs with status := some ⟨phase, step, total, sid, now, err⟩ }

/-- `main` of `handover_worker.py`, from the point where the transcript
has been read, as a function of the decoded log lines, the session id,
the current timestamp, the two call outcomes, and the initial
filesystem.  Returns the final filesystem and the event trace. -/
def runMain (lines : List (Option Record)) (sid now : Str)
    (p1 p2 : Outcome) (fs : FS) : FS × List Ev :=
  let existing := fs.handover.getD []
  match parse_jsonl lines with
  | none => (fs, [])
  | some (_, conversation) =>
    if conversation.isEmpty then (fs, [])
    else
      let hasMerge := existing ≠ []
      let fs1 := write_status fs (str "pass1") (if hasMerge then 1 else 0)
        (if hasMerge then 2 else 0) sid now []
      let ev1 := [Ev.mkScratch, Ev.wStatus, Ev.callP1]
      match p1 with
      | Outcome.timedOut =>
          let fs2 := write_status fs1 (str "error") 0 0 sid now
            (str "claude -p timed out")
          ({ fs2 with errorLog := some (now ++ str ": claude -p timed out\n") },
           ev1 ++ [Ev.wStatus, Ev.wError, Ev.rmScratch])
      | Outcome.exc ty msg =>
          let fs2 := write_status fs1 (str "error") 0 0 sid now msg
          let entry := now ++ str ": " ++ ty ++ str ": " ++ msg ++ str "\n"
          ({ fs2 with errorLog := some entry },
           ev1 ++ [Ev.wStatus, Ev.wError, Ev.rmScratch])
      | Outcome.ret r =>
          if r.getD [] = [] then
            let fs2 := write_status fs1 (str "error") 0 0 sid now
              (str "Pass 1 returned no output")
            let entry := now ++ str ": Pass 1 failed (no output from claude -p)\n"
            ({ fs2 with errorLog := some entry },
             ev1 ++ [Ev.wStatus, Ev.wError, Ev.rmScratch])
          else
            let new_fragment := r.getD []
            if hasMerge then
              let fs2 := write_status fs1 (str "pass2") 2 2 sid now []
              let ev2 := ev1 ++ [Ev.wStatus, Ev.callP2]
              match p2 with
              | Outcome.timedOut =>
                  let fs3 := write_status fs2 (str "error") 0 0 sid now
                    (str "claude -p timed out")
                  let entry := now ++ str ": claude -p timed out\n"
                  ({ fs3 with errorLog := some entry },
                   ev2 ++ [Ev.wStatus, Ev.wError, Ev.rmScratch])
              | Outcome.exc ty msg =>
                  let fs3 := write_status fs2 (str "error") 0 0 sid now msg
                  let entry := now ++ str ": " ++ ty ++ str ": " ++ msg ++ str "\n"
                  ({ fs3 with errorLog := some entry },
                   ev2 ++ [Ev.wStatus, Ev.wError, Ev.rmScratch])
              | Outcome.ret r2 =>
                  if r2.getD [] ≠ [] then
                    let fs3 := { fs2 with handover := some (r2.getD []) }
                    let fs4 := write_status fs3 (str "done") 0 0 sid now []
                    ({ fs4 with ready := some sid },
                     ev2 ++ [Ev.wHandover, Ev.wStatus, Ev.wReady, Ev.rmScratch])
                  else
                    let entry := now ++ str ": Pass 2 failed, saved Pass 1 output only\n"
                    let fs3 :=
                      { fs2 with handover := some new_fragment, errorLog := some entry }
                    let fs4 := write_status fs3 (str "done") 0 0 sid now []
                    ({ fs4 with ready := some sid },
                     ev2 ++ [Ev.wHandover, Ev.wError, Ev.wStatus, Ev.wReady,
                       Ev.rmScratch])
            else
              let fs2 := { fs1 with handover := some new_fragment }
              let fs3 := write_status fs2 (str "done") 0 0 sid now []
              ({ fs3 with ready := some sid },
               ev1 ++ [Ev.wHandover, Ev.wStatus, Ev.wReady, Ev.rmScratch])

/-- Phase field of the status file, when present. -/
def statusPhase (fs : FS) : Option Str :=
  fs.status.map StatusRec.phase

/-- Scans an event trace and checks that every readiness-marker write is
preceded by a handover-document write; the Boolean argument records
whether a document write has been seen. -/
def readyAfterDoc : List Ev → Bool → Bool
  | [], _ => true
  | Ev.wHandover :: tl, _ => readyAfterDoc tl true
  | Ev.wReady :: tl, seen => seen && readyAfterDoc tl seen
  | _ :: tl, seen => readyAfterDoc tl seen

/-! Concrete records used to instantiate hypothesised theorems. -/

/-- A plain user record with string content. -/
def uRec (t : String) : Record :=
  ⟨str "user", [], some (str "user"), Content.str (str t)⟩

/-- A compaction-boundary record. -/
def bRec : Record :=
  ⟨str "system", str "compact_boundary", none, Content.other⟩

/-- A plain assistant record with string content. -/
def aRec (t : String) : Record :=
  ⟨str "assistant", [], some (str "assistant"), Content.str (str t)⟩

/-- A one-boundary log: one qualifying user turn, then the boundary. -/
def linesA : List (Option Record) := [some (uRec "please do the thing"), some bRec]

/-- A two-boundary log: junk, boundary, a qualifying turn, boundary. -/
def linesB : List (Option Record) :=
  [some (uRec "ancient history before the old boundary"), some bRec,
   some (uRec "please do the thing"), some bRec]

/-- The empty filesystem: no file exists yet. -/
def fsEmpty : FS := ⟨none, none, none, none⟩

/-! ### Lemmas about boundary positions -/

/-- Boundary positions of an appended log split at the junction. -/
theorem bpf_append (xs ys : List (Option Record)) (i : Nat) :
    boundaryPositionsFrom (xs ++ ys) i
      = boundaryPositionsFrom xs i ++ boundaryPositionsFrom ys (i + xs.length) := by
  induction xs generalizing i with
  | nil => simp [boundaryPositionsFrom]
  | cons x xs ih =>
    have harith : i + 1 + xs.length = i + (xs.length + 1) := by omega
    by_cases h : isBoundary x <;>
      simp [boundaryPositionsFrom, h, ih, harith]

/-- Every boundary position found from offset `i` lies in
`[i, i + length)`. -/
theorem mem_bpf {xs : List (Option Record)} {i j : Nat}
    (h : j ∈ boundaryPositionsFrom xs i) : i ≤ j ∧ j < i + xs.length := by
  induction xs generalizing i with
  | nil => simp [boundaryPositionsFrom] at h
  | cons x xs ih =>
    simp only [boundaryPositionsFrom] at h
    by_cases hb : isBoundary x
    · rw [if_pos hb] at h
      rcases List.mem_cons.mp h with rfl | h'
      · simp only [List.length_cons]
        omega
      · have := ih h'
        simp only [List.length_cons]
        omega
    · rw [if_neg hb] at h
      have := ih h
      simp only [List.length_cons]
      omega

/-- `parse_jsonl` in the at-least-two-boundaries case, with the range
endpoints written as negative-index lookups. -/
theorem parse_two (lines : List (Option Record))
    (h2 : 2 ≤ (boundaryPositions lines).length) :
    parse_jsonl lines
      = some (findSummary lines
            ((boundaryPositions lines).getD ((boundaryPositions lines).length - 1) 0),
          conversationOf lines
            ((boundaryPositions lines).getD ((boundaryPositions lines).length - 2) 0)
            ((boundaryPositions lines).getD ((boundaryPositions lines).length - 1) 0)) := by
  have hne : (boundaryPositions lines).isEmpty = false := by
    cases h : boundaryPositions lines with
    | nil => rw [h] at h2; simp at h2
    | cons a t => rfl
  simp [parse_jsonl, hne, h2]

/-- The extracted conversation over a range starting at or after the
junction only depends on the suffix. -/
theorem conversationOf_append_right (pre pre' suf : List (Option Record))
    (hlen : pre.length = pre'.length) (s l : Nat) (hs : pre.length ≤ s) :
    conversationOf (pre' ++ suf) s l = conversationOf (pre ++ suf) s l := by
  unfold conversationOf
  apply List.filterMap_congr
  intro i hi
  have hsi : pre.length ≤ i := by
    rcases List.mem_range'.mp hi with ⟨k, hk, rfl⟩
    omega
  rw [List.getD_append_right _ _ _ _ (by omega),
    List.getD_append_right _ _ _ _ (by omega), hlen]

/-- C1: with exactly one compaction boundary the processed range is
`[0, boundary)`; with at least two it is `[second-to-last, last)`; and
in the latter case the extracted turns do not depend on the log content
strictly before the second-to-last boundary. -/
theorem C1_processing_range :
    (∀ lines l, boundaryPositions lines = [l] →
      parse_jsonl lines = some (findSummary lines l, conversationOf lines 0 l))
    ∧ (∀ lines, 2 ≤ (boundaryPositions lines).length →
        (parse_jsonl lines).map Prod.snd
          = some (conversationOf lines
              ((boundaryPositions lines).getD ((boundaryPositions lines).length - 2) 0)
              ((boundaryPositions lines).getD ((boundaryPositions lines).length - 1) 0)))
    ∧ (∀ pre pre' suf : List (Option Record), pre.length = pre'.length →
        2 ≤ (boundaryPositions (pre ++ suf)).length →
        (boundaryPositions (pre ++ suf)).getD
            ((boundaryPositions (pre ++ suf)).length - 2) 0 = pre.length →
        (parse_jsonl (pre' ++ suf)).map Prod.snd
          = (parse_jsonl (pre ++ suf)).map Prod.snd) := by
  refine ⟨?_, ?_, ?_⟩
  · intro lines l h
    simp [parse_jsonl, h]
  · intro lines h2
    rw [parse_two lines h2]
    rfl
  · intro pre pre' suf hlen h2 hsplit
    have hbsA : boundaryPositions (pre ++ suf)
        = boundaryPositionsFrom pre 0 ++ boundaryPositionsFrom suf pre.length := by
      simpa [boundaryPositions] using bpf_append pre suf 0
    have hbsA' : boundaryPositions (pre' ++ suf)
        = boundaryPositionsFrom pre' 0 ++ boundaryPositionsFrom suf pre.length := by
      have h0 := bpf_append pre' suf 0
      rw [Nat.zero_add, ← hlen] at h0
      simpa [boundaryPositions] using h0
    set A := boundaryPositionsFrom pre 0
    set A' := boundaryPositionsFrom pre' 0
    set B := boundaryPositionsFrom suf pre.length
    rw [hbsA] at hsplit
    have h2AB : 2 ≤ (A ++ B).length := by rw [← hbsA]; exact h2
    have hAmem : ∀ j ∈ A, j < pre.length := by
      intro j hj
      have := mem_bpf hj
      omega
    have hBlen : 2 ≤ B.length := by
      by_contra hc
      have hidx : (A ++ B).length - 2 < A.length := by
        rw [List.length_append] at h2AB ⊢
        omega
      have hgd := List.getD_append A B 0 ((A ++ B).length - 2) hidx
      rw [hsplit] at hgd
      have hmem : A.getD ((A ++ B).length - 2) 0 ∈ A := by
        rw [List.getD_eq_getElem A 0 hidx]
        exact List.getElem_mem hidx
      rw [← hgd] at hmem
      exact absurd (hAmem _ hmem) (lt_irrefl _)
    have hL : (A ++ B).length = A.length + B.length := List.length_append A B
    have hL' : (A' ++ B).length = A'.length + B.length := List.length_append A' B
    have e1 : (A ++ B).getD ((A ++ B).length - 2) 0 = B.getD (B.length - 2) 0 := by
      rw [List.getD_append_right A B 0 _ (by rw [hL]; omega), hL]
      congr 1
      omega
    have e2 : (A ++ B).getD ((A ++ B).length - 1) 0 = B.getD (B.length - 1) 0 := by
      rw [List.getD_append_right A B 0 _ (by rw [hL]; omega), hL]
      congr 1
      omega
    have e1' : (A' ++ B).getD ((A' ++ B).length - 2) 0 = B.getD (B.length - 2) 0 := by
      rw [List.getD_append_right A' B 0 _ (by rw [hL']; omega), hL']
      congr 1
      omega
    have e2' : (A' ++ B).getD ((A' ++ B).length - 1) 0 = B.getD (B.length - 1) 0 := by
      rw [List.getD_append_right A' B 0 _ (by rw [hL']; omega), hL']
      congr 1
      omega
    have hBval : B.getD (B.length - 2) 0 = pre.length := by rw [← e1]; exact hsplit
    have h2' : 2 ≤ (boundaryPositions (pre' ++ suf)).length := by
      rw [hbsA', hL']
      omega
    rw [parse_two (pre ++ suf) h2, parse_two (pre' ++ suf) h2']
    simp only [Option.map_some']
    rw [hbsA, hbsA', e1, e1', e2, e2', hBval]
    exact congrArg some
      (conversationOf_append_right pre pre' suf hlen pre.length
        (B.getD (B.length - 1) 0) (le_refl _))

/-- C1 witness: the three parts instantiated on concrete logs — a
one-boundary log, a two-boundary log, and a two-boundary log whose
content before the second-to-last boundary is replaced. -/
theorem C1_processing_range_witness :
    parse_jsonl linesA = some (findSummary linesA 1, conversationOf linesA 0 1)
    ∧ (parse_jsonl linesB).map Prod.snd
        = some (conversationOf linesB
            ((boundaryPositions linesB).getD ((boundaryPositions linesB).length - 2) 0)
            ((boundaryPositions linesB).getD ((boundaryPositions linesB).length - 1) 0))
    ∧ (parse_jsonl ([none] ++ [some bRec, some (uRec "please do the thing"), some bRec])).map
          Prod.snd
        = (parse_jsonl ([some (uRec "old stuff")]
            ++ [some bRec, some (uRec "please do the thing"), some bRec])).map Prod.snd :=
  ⟨C1_processing_range.1 linesA 1 (by decide),
   C1_processing_range.2.1 linesB (by decide),
   C1_processing_range.2.2 [some (uRec "old stuff")] [none]
     [some bRec, some (uRec "please do the thing"), some bRec]
     (by decide) (by decide) (by decide)⟩

/-- C8: a log with zero compaction boundaries makes the parser return
the sentinel and the run leaves every file untouched, with an empty
effect trace. -/
theorem C8_no_compaction_noop (lines : List (Option Record)) (sid now : Str)
    (p1 p2 : Outcome) (fs : FS) (h : boundaryPositions lines = []) :
    parse_jsonl lines = none ∧ runMain lines sid now p1 p2 fs = (fs, []) := by
  have hp : parse_jsonl lines = none := by simp [parse_jsonl, h]
  exact ⟨hp, by simp [runMain, hp]⟩

/-- C8 witness: a log with a user record and a decode failure but no
boundary record. -/
theorem C8_no_compaction_noop_witness :
    parse_jsonl [some (uRec "please do the thing"), none] = none
    ∧ runMain [some (uRec "please do the thing"), none] (str "S") (str "T")
        (Outcome.ret (some (str "frag"))) (Outcome.ret none) fsEmpty = (fsEmpty, []) :=
  C8_no_compaction_noop [some (uRec "please do the thing"), none] (str "S") (str "T")
    (Outcome.ret (some (str "frag"))) (Outcome.ret none) fsEmpty (by decide)

/-- C3: when no prior handover document exists and Pass 1 succeeds, the
fragment itself is persisted as the document and the merge call is never
made, whatever the merge oracle would have answered. -/
theorem C3_no_prior_doc (lines : List (Option Record)) (sid now : Str)
    (p2 : Outcome) (fs : FS) (sc : Str) (conv : List Str) (frag : Str)
    (hp : parse_jsonl lines = some (sc, conv)) (hconv : conv ≠ [])
    (hnone : fs.handover = none) (hfrag : frag ≠ []) :
    (runMain lines sid now (Outcome.ret (some frag)) p2 fs).1.handover = some frag
    ∧ Ev.callP2 ∉ (runMain lines sid now (Outcome.ret (some frag)) p2 fs).2 := by
  have hie : conv.isEmpty = false := by
    cases conv with
    | nil => exact absurd rfl hconv
    | cons a t => rfl
  simp [runMain, hp, hie, hnone, hfrag, write_status]

/-- C3 witness. -/
theorem C3_no_prior_doc_witness :
    (runMain linesA (str "S") (str "T") (Outcome.ret (some (str "frag")))
        (Outcome.ret none) fsEmpty).1.handover = some (str "frag")
    ∧ Ev.callP2 ∉ (runMain linesA (str "S") (str "T")
        (Outcome.ret (some (str "frag"))) (Outcome.ret none) fsEmpty).2 :=
  C3_no_prior_doc linesA (str "S") (str "T") (Outcome.ret none) fsEmpty
    [] [str "[user]: please do the thing"] (str "frag")
    (by decide) (by decide) (by decide) (by decide)

/-- C2: with a prior document present, Pass 1 succeeding and Pass 2
returning no output, the Pass 1 fragment verbatim becomes the document,
a degraded-success entry is written to the error log, the status ends at
phase `done`, and the readiness marker is created. -/
theorem C2_pass2_degraded (lines : List (Option Record)) (sid now : Str)
    (fs : FS) (sc : Str) (conv : List Str) (prior frag : Str)
    (hp : parse_jsonl lines = some (sc, conv)) (hconv : conv ≠ [])
    (hprior : fs.handover = some prior) (hne : prior ≠ []) (hfrag : frag ≠ []) :
    (runMain lines sid now (Outcome.ret (some frag)) (Outcome.ret none) fs).1.handover
        = some frag
    ∧ (runMain lines sid now (Outcome.ret (some frag)) (Outcome.ret none) fs).1.errorLog
        = some (now ++ str ": Pass 2 failed, saved Pass 1 output only\n")
    ∧ statusPhase (runMain lines sid now (Outcome.ret (some frag))
        (Outcome.ret none) fs).1 = some (str "done")
    ∧ (runMain lines sid now (Outcome.ret (some frag)) (Outcome.ret none) fs).1.ready
        = some sid := by
  have hie : conv.isEmpty = false := by
    cases conv with
    | nil => exact absurd rfl hconv
    | cons a t => rfl
  simp [runMain, hp, hie, hprior, hne, hfrag, write_status, statusPhase]

/-- C2 witness. -/
theorem C2_pass2_degraded_witness :
    (runMain linesA (str "S") (str "T") (Outcome.ret (some (str "frag")))
        (Outcome.ret none) ⟨some (str "old doc"), none, none, none⟩).1.handover
        = some (str "frag")
    ∧ (runMain linesA (str "S") (str "T") (Outcome.ret (some (str "frag")))
        (Outcome.ret none) ⟨some (str "old doc"), none, none, none⟩).1.errorLog
        = some (str "T" ++ str ": Pass 2 failed, saved Pass 1 output only\n")
    ∧ statusPhase (runMain linesA (str "S") (str "T") (Outcome.ret (some (str "frag")))
        (Outcome.ret none) ⟨some (str "old doc"), none, none, none⟩).1
        = some (str "done")
    ∧ (runMain linesA (str "S") (str "T") (Outcome.ret (some (str "frag")))
        (Outcome.ret none) ⟨some (str "old doc"), none, none, none⟩).1.ready
        = some (str "S") :=
  C2_pass2_degraded linesA (str "S") (str "T")
    ⟨some (str "old doc"), none, none, none⟩
    [] [str "[user]: please do the thing"] (str "old doc") (str "frag")
    (by decide) (by decide) (by decide) (by decide) (by decide)

/-- C9: in every run the readiness marker is written at most once; every
marker write comes after a handover-document write; and a run whose
status ends at phase `error` writes no marker at all. -/
theorem C9_ready_marker (lines : List (Option Record)) (sid now : Str)
    (p1 p2 : Outcome) (fs : FS) :
    (runMain lines sid now p1 p2 fs).2.count Ev.wReady ≤ 1
    ∧ readyAfterDoc (runMain lines sid now p1 p2 fs).2 false = true
    ∧ (statusPhase (runMain lines sid now p1 p2 fs).1 = some (str "error") →
        Ev.wReady ∉ (runMain lines sid now p1 p2 fs).2) := by
  cases hp : parse_jsonl lines with
  | none => simp [runMain, hp, readyAfterDoc]
  | some pr =>
    obtain ⟨sc, conv⟩ := pr
    cases hie : conv.isEmpty with
    | true => simp [runMain, hp, hie, readyAfterDoc]
    | false =>
      cases p1 with
      | timedOut =>
        simp [runMain, hp, hie, write_status, statusPhase, readyAfterDoc]
      | exc ty msg =>
        simp [runMain, hp, hie, write_status, statusPhase, readyAfterDoc]
      | ret r =>
        by_cases hr : r.getD [] = []
        · simp [runMain, hp, hie, hr, write_status, statusPhase, readyAfterDoc]
        · by_cases hm : fs.handover.getD [] = []
          · simp [runMain, hp, hie, hr, hm, write_status, statusPhase, readyAfterDoc]
            decide
          · cases p2 with
            | timedOut =>
              simp [runMain, hp, hie, hr, hm, write_status, statusPhase, readyAfterDoc]
            | exc ty msg =>
              simp [runMain, hp, hie, hr, hm, write_status, statusPhase, readyAfterDoc]
            | ret r2 =>
              by_cases hr2 : r2.getD [] = []
              · simp [runMain, hp, hie, hr, hm, hr2, write_status, statusPhase,
                  readyAfterDoc]
                decide
              · simp [runMain, hp, hie, hr, hm, hr2, write_status, statusPhase,
                  readyAfterDoc]
                decide

/-- C9 witness: a run whose Pass 1 returns no output ends at phase
`error` and writes no readiness marker. -/
theorem C9_ready_marker_witness :
    (runMain linesA (str "S") (str "T") (Outcome.ret none) (Outcome.ret none)
        fsEmpty).2.count Ev.wReady ≤ 1
    ∧ readyAfterDoc (runMain linesA (str "S") (str "T") (Outcome.ret none)
        (Outcome.ret none) fsEmpty).2 false = true
    ∧ Ev.wReady ∉ (runMain linesA (str "S") (str "T") (Outcome.ret none)
        (Outcome.ret none) fsEmpty).2 :=
  ⟨(C9_ready_marker linesA (str "S") (str "T") (Outcome.ret none)
      (Outcome.ret none) fsEmpty).1,
   (C9_ready_marker linesA (str "S") (str "T") (Outcome.ret none)
      (Outcome.ret none) fsEmpty).2.1,
   (C9_ready_marker linesA (str "S") (str "T") (Outcome.ret none)
      (Outcome.ret none) fsEmpty).2.2 (by decide)⟩

/-- C10: a prior handover file that exists with empty content behaves
exactly like an absent one: the run performs the same effects in the
same order, the merge call is never made, and a successful Pass 1
fragment is persisted verbatim. -/
theorem C10_empty_prior_doc (lines : List (Option Record)) (sid now : Str)
    (p1 p2 : Outcome) (e : Option Str) (st : Option StatusRec) (rd : Option Str) :
    (runMain lines sid now p1 p2 ⟨some [], e, st, rd⟩).2
        = (runMain lines sid now p1 p2 ⟨none, e, st, rd⟩).2
    ∧ Ev.callP2 ∉ (runMain lines sid now p1 p2 ⟨some [], e, st, rd⟩).2
    ∧ (∀ sc conv frag, parse_jsonl lines = some (sc, conv) → conv ≠ [] →
        p1 = Outcome.ret (some frag) → frag ≠ [] →
        (runMain lines sid now p1 p2 ⟨some [], e, st, rd⟩).1.handover = some frag) := by
  refine ⟨?_, ?_, ?_⟩
  · cases hp : parse_jsonl lines with
    | none => simp [runMain, hp]
    | some pr =>
      obtain ⟨sc, conv⟩ := pr
      cases hie : conv.isEmpty with
      | true => simp [runMain, hp, hie]
      | false =>
        cases p1 with
        | timedOut => simp [runMain, hp, hie]
        | exc ty msg => simp [runMain, hp, hie]
        | ret r =>
          by_cases hr : r.getD [] = [] <;>
            simp [runMain, hp, hie, hr]
  · cases hp : parse_jsonl lines with
    | none => simp [runMain, hp]
    | some pr =>
      obtain ⟨sc, conv⟩ := pr
      cases hie : conv.isEmpty with
      | true => simp [runMain, hp, hie]
      | false =>
        cases p1 with
        | timedOut => simp [runMain, hp, hie]
        | exc ty msg => simp [runMain, hp, hie]
        | ret r =>
          by_cases hr : r.getD [] = [] <;>
            simp [runMain, hp, hie, hr]
  · intro sc conv frag hp hconv hp1 hfrag
    have hie : conv.isEmpty = false := by
      cases conv with
      | nil => exact absurd rfl hconv
      | cons a t => rfl
    subst hp1
    simp [runMain, hp, hie, hfrag, write_status]

/-- C10 witness. -/
theorem C10_empty_prior_doc_witness :
    (runMain linesA (str "S") (str "T") (Outcome.ret (some (str "frag")))
        (Outcome.ret none) ⟨some [], none, none, none⟩).2
      = (runMain linesA (str "S") (str "T") (Outcome.ret (some (str "frag")))
          (Outcome.ret none) ⟨none, none, none, none⟩).2
    ∧ Ev.callP2 ∉ (runMain linesA (str "S") (str "T")
        (Outcome.ret (some (str "frag"))) (Outcome.ret none)
        ⟨some [], none, none, none⟩).2
    ∧ (runMain linesA (str "S") (str "T") (Outcome.ret (some (str "frag")))
        (Outcome.ret none) ⟨some [], none, none, none⟩).1.handover
      = some (str "frag") :=
  ⟨(C10_empty_prior_doc linesA (str "S") (str "T") (Outcome.ret (some (str "frag")))
      (Outcome.ret none) none none none).1,
   (C10_empty_prior_doc linesA (str "S") (str "T") (Outcome.ret (some (str "frag")))
      (Outcome.ret none) none none none).2.1,
   (C10_empty_prior_doc linesA (str "S") (str "T") (Outcome.ret (some (str "frag")))
      (Outcome.ret none) none none none).2.2
     [] [str "[user]: please do the thing"] (str "frag")
     (by decide) (by decide) rfl (by decide)⟩

/-- C4 counterexample: the worker writes the error log with an
overwriting write, not an append.  Starting from a log that already
holds an earlier entry, a Pass 1 failure leaves the log equal to the
single new entry, and the earlier entry's text no longer occurs in it —
so content previously present is not still present afterwards. -/
theorem C4_counterexample :
    (runMain linesA (str "S") (str "T2") (Outcome.ret none) (Outcome.ret none)
        ⟨none, some (str "T1: earlier failure\n"), none, none⟩).1.errorLog
      = some (str "T2: Pass 1 failed (no output from claude -p)\n")
    ∧ listContains (str "T1: earlier failure")
        (str "T2: Pass 1 failed (no output from claude -p)\n") = false := by
  decide

/-- C4 amended: every failure write to `HANDOVER-{session}.error.log`
replaces the file content with exactly the single new timestamped entry,
regardless of what the log contained before (overwrite, not append). -/
theorem C4_error_log_overwrite (lines : List (Option Record)) (sid now : Str)
    (p2 : Outcome) (fs : FS) (sc : Str) (conv : List Str)
    (hp : parse_jsonl lines = some (sc, conv)) (hconv : conv ≠ []) :
    (runMain lines sid now (Outcome.ret none) p2 fs).1.errorLog
        = some (now ++ str ": Pass 1 failed (no output from claude -p)\n")
    ∧ (runMain lines sid now Outcome.timedOut p2 fs).1.errorLog
        = some (now ++ str ": claude -p timed out\n")
    ∧ (∀ ty msg, (runMain lines sid now (Outcome.exc ty msg) p2 fs).1.errorLog
        = some (now ++ str ": " ++ ty ++ str ": " ++ msg ++ str "\n"))
    ∧ (∀ frag prior, fs.handover = some prior → prior ≠ [] → frag ≠ [] →
        (runMain lines sid now (Outcome.ret (some frag)) (Outcome.ret none)
            fs).1.errorLog
          = some (now ++ str ": Pass 2 failed, saved Pass 1 output only\n")) := by
  have hie : conv.isEmpty = false := by
    cases conv with
    | nil => exact absurd rfl hconv
    | cons a t => rfl
  refine ⟨?_, ?_, ?_, ?_⟩
  · simp [runMain, hp, hie]
  · simp [runMain, hp, hie]
  · intro ty msg
    simp [runMain, hp, hie]
  · intro frag prior hprior hpr hfrag
    simp [runMain, hp, hie, hprior, hpr, hfrag, write_status]

/-- C4 amended witness: the four failure kinds on a concrete log, each
leaving the error log equal to its single new entry. -/
theorem C4_error_log_overwrite_witness :
    (runMain linesA (str "S") (str "T") (Outcome.ret none) (Outcome.ret none)
        fsEmpty).1.errorLog
      = some (str "T" ++ str ": Pass 1 failed (no output from claude -p)\n")
    ∧ (runMain linesA (str "S") (str "T") Outcome.timedOut (Outcome.ret none)
        fsEmpty).1.errorLog
      = some (str "T" ++ str ": claude -p timed out\n")
    ∧ (runMain linesA (str "S") (str "T")
        (Outcome.exc (str "ValueError") (str "boom")) (Outcome.ret none)
        fsEmpty).1.errorLog
      = some (str "T" ++ str ": " ++ str "ValueError" ++ str ": " ++ str "boom"
          ++ str "\n")
    ∧ (runMain linesA (str "S") (str "T") (Outcome.ret (some (str "frag")))
        (Outcome.ret none) ⟨some (str "old doc"), none, none, none⟩).1.errorLog
      = some (str "T" ++ str ": Pass 2 failed, saved Pass 1 output only\n") :=
  ⟨(C4_error_log_overwrite linesA (str "S") (str "T") (Outcome.ret none) fsEmpty
      [] [str "[user]: please do the thing"] (by decide) (by decide)).1,
   (C4_error_log_overwrite linesA (str "S") (str "T") (Outcome.ret none) fsEmpty
      [] [str "[user]: please do the thing"] (by decide) (by decide)).2.1,
   (C4_error_log_overwrite linesA (str "S") (str "T") (Outcome.ret none) fsEmpty
      [] [str "[user]: please do the thing"] (by decide) (by decide)).2.2.1
     (str "ValueError") (str "boom"),
   (C4_error_log_overwrite linesA (str "S") (str "T") (Outcome.ret none)
      ⟨some (str "old doc"), none, none, none⟩
      [] [str "[user]: please do the thing"] (by decide) (by decide)).2.2.2
     (str "frag") (str "old doc") rfl (by decide) (by decide)⟩

/-- C5 counterexample: the noise filter compares the UNTRIMMED length to
10.  A user record whose text is eight spaces followed by `ab` has a
trimmed length of 2 (below the threshold), yet its turn is included in
the parsed conversation — contradicting the claim that user turns of
trimmed length under 10 are excluded. -/
theorem C5_counterexample :
    (pyStrip (str "        ab")).length < 10
    ∧ parse_jsonl [some (uRec "        ab"), some bRec]
        = some ([], [str "[user]:         ab"]) := by
  decide

/-- C5 amended: for a user-role record whose text is non-blank, the
turn is excluded exactly when the raw (untrimmed) text length is below
10 code points, with the boundary at a raw length of exactly 10. -/
theorem C5_user_length_threshold (r : Record) (htype : r.type = str "user")
    (hrole : r.role.getD r.type = str "user")
    (hblank : pyStrip (extract_text r.content) ≠ []) :
    (turnOfRecord (some r)).isSome ↔ 10 ≤ (extract_text r.content).length := by
  have hua : ¬(str "user" = str "assistant") := by decide
  have hrole2 : r.role.getD (str "user") = str "user" := htype ▸ hrole
  simp only [turnOfRecord, htype, hrole2]
  by_cases h10 : (extract_text r.content).length < 10
  · simp [hua, hblank, h10]
  · simp [hua, hblank, h10]
    omega

/-- C5 amended witness: a user turn of raw length exactly 10 sits on
the included side of the boundary. -/
theorem C5_user_length_threshold_witness :
    (turnOfRecord (some (uRec "0123456789"))).isSome
      ↔ 10 ≤ (extract_text (uRec "0123456789").content).length :=
  C5_user_length_threshold (uRec "0123456789") (by decide) (by decide) (by decide)

/-- C6: every turn the parser produces is the role tag followed by the
truncation of the extracted text, where text over 2000 code points is
cut to its first 2000 with the truncation marker appended, and text of
at most 2000 code points (in particular exactly 2000) is unchanged. -/
theorem C6_turn_truncation :
    (∀ r out, turnOfRecord (some r) = some out →
      out = str "[" ++ r.role.getD r.type ++ str "]: "
          ++ truncateTurn (extract_text r.content))
    ∧ (∀ text : Str, 2000 < text.length →
        truncateTurn text = text.take 2000 ++ str "\n[...truncated...]"
        ∧ (text.take 2000).length = 2000)
    ∧ (∀ text : Str, text.length ≤ 2000 → truncateTurn text = text) := by
  refine ⟨?_, ?_, ?_⟩
  · intro r out h
    simp only [turnOfRecord] at h
    split at h
    · exact absurd h (by simp)
    · split at h
      · exact absurd h (by simp)
      · split at h
        · exact absurd h (by simp)
        · split at h
          · exact absurd h (by simp)
          · exact (Option.some_inj.mp h).symm
  · intro text h
    refine ⟨by simp [truncateTurn, h], ?_⟩
    rw [List.length_take]
    exact min_eq_left (by omega)
  · intro text h
    unfold truncateTurn
    rw [if_neg (by omega)]

/-- C6 witness: a produced turn's shape, a 2001-code-point text being
truncated, and a short text passing through unchanged. -/
theorem C6_turn_truncation_witness :
    str "[user]: please do the thing"
        = str "[" ++ (uRec "please do the thing").role.getD
              (uRec "please do the thing").type
          ++ str "]: " ++ truncateTurn (extract_text (uRec "please do the thing").content)
    ∧ truncateTurn (List.replicate 2001 'a')
        = (List.replicate 2001 'a').take 2000 ++ str "\n[...truncated...]"
    ∧ truncateTurn (str "short text") = str "short text" :=
  ⟨C6_turn_truncation.1 (uRec "please do the thing")
      (str "[user]: please do the thing") (by decide),
   (C6_turn_truncation.2.1 (List.replicate 2001 'a')
      (by rw [List.length_replicate]; omega)).1,
   C6_turn_truncation.2.2 (str "short text") (by decide)⟩

/-- C7 counterexample: the prepared compaction summary is not bounded by
20000 code points — for a 20001-code-point summary it has
20000 + 18 = 20018, because the truncation marker is appended after the
cut. -/
theorem C7_counterexample :
    ¬((pass1_summary (List.replicate 20001 'a')).length ≤ 20000) := by
  have hgt : 20000 < (List.replicate 20001 'a').length := by
    rw [List.length_replicate]
    omega
  have hm : (str "\n[...truncated...]").length = 18 := by decide
  unfold pass1_summary
  rw [if_pos hgt, List.length_append, List.length_take, List.length_replicate, hm,
    min_eq_left (by omega : (20000 : Nat) ≤ 20001)]
  omega

/-- C7 amended: the joined transcript is capped to its last 150000 code
points when longer and kept whole otherwise; a summary longer than
20000 code points is replaced by its first 20000 followed by the
18-code-point truncation marker (so 20018 in total, not at most
20000), and a summary of at most 20000 is kept whole. -/
theorem C7_size_caps :
    (∀ conversation : List Str,
      150000 < (List.intercalate (str "\n\n") conversation).length →
      pass1_transcript conversation
          = (List.intercalate (str "\n\n") conversation).drop
              ((List.intercalate (str "\n\n") conversation).length - 150000)
        ∧ (pass1_transcript conversation).length = 150000)
    ∧ (∀ conversation : List Str,
        (List.intercalate (str "\n\n") conversation).length ≤ 150000 →
        pass1_transcript conversation = List.intercalate (str "\n\n") conversation)
    ∧ (∀ s : Str, 20000 < s.length →
        pass1_summary s = s.take 20000 ++ str "\n[...truncated...]"
          ∧ (pass1_summary s).length = 20018)
    ∧ (∀ s : Str, s.length ≤ 20000 → pass1_summary s = s) := by
  refine ⟨?_, ?_, ?_, ?_⟩
  · intro conversation h
    refine ⟨by simp [pass1_transcript, h], ?_⟩
    simp only [pass1_transcript, if_pos h, List.length_drop]
    omega
  · intro conversation h
    simp [pass1_transcript, Nat.not_lt.mpr h]
  · intro s h
    refine ⟨by simp [pass1_summary, h], ?_⟩
    have hm : (str "\n[...truncated...]").length = 18 := by decide
    simp only [pass1_summary, if_pos h, List.length_append, List.length_take, hm,
      min_eq_left (by omega : 20000 ≤ s.length)]
  · intro s h
    simp [pass1_summary, Nat.not_lt.mpr h]

/-- Joining a single turn is the turn itself. -/
theorem intercalate_singleton (sep x : Str) : List.intercalate sep [x] = x := by
  simp [List.intercalate]

/-- C7 amended witness: the four cap branches on concrete inputs. -/
theorem C7_size_caps_witness :
    (pass1_transcript [List.replicate 150001 'a']).length = 150000
    ∧ pass1_transcript [str "short turn"]
        = List.intercalate (str "\n\n") [str "short turn"]
    ∧ pass1_summary (List.replicate 20001 'a')
        = (List.replicate 20001 'a').take 20000 ++ str "\n[...truncated...]"
    ∧ pass1_summary (str "short summary") = str "short summary" :=
  ⟨(C7_size_caps.1 [List.replicate 150001 'a']
      (by rw [intercalate_singleton, List.length_replicate]; omega)).2,
   C7_size_caps.2.1 [str "short turn"] (by decide),
   (C7_size_caps.2.2.1 (List.replicate 20001 'a')
      (by rw [List.length_replicate]; omega)).1,
   C7_size_caps.2.2.2 (str "short summary") (by decide)⟩
